import Mathlib

/-!
# Verification of `motor_model_servo.hpp` (rotors_simulator)

Shallow embedding of `gazebo::MotorModelServo` from
`rotors_gazebo_plugins/include/rotors_gazebo_plugins/motor_model_servo.hpp`
over exact rational arithmetic.  Doubles become `ℚ`; `M_PI` becomes the
rational value of the IEEE-754 double closest to π (the value of `M_PI`).
The PID integrator (`gazebo::common::PID`) is third-party Gazebo code whose
internal numerics are an external interface contract; its `Update` is taken
as an arbitrary function parameter, while its configuration record mirrors
the arguments of `PID::Init`.
-/

namespace Servo

/-- The rational value of the IEEE-754 double constant `M_PI`
(884279719003555 · 2⁻⁴⁸, the double closest to π). -/
def mPi : ℚ := 884279719003555 / 281474976710656

/-- C truncation toward zero, as used by `std::fmod`. -/
def rtrunc (q : ℚ) : ℤ := if q < 0 then ⌈q⌉ else ⌊q⌋

/-- `std::fmod x y = x - y * trunc (x / y)` (exact-arithmetic model). -/
def fmod (x y : ℚ) : ℚ := x - y * rtrunc (x / y)

/-- `std::copysign x y`: the magnitude of `x` carrying the sign of `y`.
`ℚ` has no negative zero, so `y = 0` takes the positive branch, matching
`copysign` on `+0.0`. -/
def copysign (x y : ℚ) : ℚ := if y < 0 then -|x| else |x|

/-- `enum class ControlMode { kVelocity, kPosition, kForce }`. -/
inductive ControlMode
  | kVelocity
  | kPosition
  | kForce
deriving DecidableEq, Repr

/-- Configuration record of the Gazebo PID integrator: exactly the seven
arguments of `common::PID::Init(p, i, d, iMax, iMin, cmdMax, cmdMin)`,
plus the internal integral accumulator and previous error.
Modelled from the spec: the PID integrator is an external primitive whose
interface is `Init(p, i, d, integralMax, integralMin, outputMax, outputMin)`
and whose internal state is the integral accumulator and previous error. -/
structure PID where
  p : ℚ
  i : ℚ
  d : ℚ
  iMax : ℚ
  iMin : ℚ
  cmdMax : ℚ
  cmdMin : ℚ
  integral : ℚ
  errLast : ℚ
deriving DecidableEq, Repr

/-- `PID::Init`: sets the seven gains/clamps and resets the internal state. -/
def PID.Init (p i d iMax iMin cmdMax cmdMin : ℚ) : PID :=
  ⟨p, i, d, iMax, iMin, cmdMax, cmdMin, 0, 0⟩

/-- The type of `PID::Update(error, dt)`: from the current PID state, the
error and the time step, produce the command and the next PID state.  The
PID numerics are external (Gazebo), so theorems quantify over this. -/
def PIDUpdate : Type := PID → ℚ → ℚ → ℚ × PID

/-- An optional `<joint_control_pid>` SDF block: each of the seven fields
may be present or absent (`getSdfParam` substitutes the default 0.0). -/
structure PidConfig where
  p : Option ℚ
  i : Option ℚ
  d : Option ℚ
  iMax : Option ℚ
  iMin : Option ℚ
  cmdMax : Option ℚ
  cmdMin : Option ℚ
deriving DecidableEq, Repr

/-- `getSdfParam<double>(elem, name, var, default)`: the field's value when
present, the default otherwise. -/
def getSdfParam (field : Option ℚ) (defaultValue : ℚ) : ℚ :=
  field.getD defaultValue

/-- The `joint_control_pid` branch of `MotorModelServo::InitializeParams`,
line by line.  The C++ declares `double p, i, d, iMax, iMin, cmdMax, cmdMin;`
uninitialized and never assigns `iMax` (the line reading the `iMax` field
stores into `p`); the indeterminate value that `iMax` holds when passed to
`Init` is the parameter `iMaxUninit`. -/
def initPidFromConfig (cfg : PidConfig) (iMaxUninit : ℚ) : PID :=
  let p := getSdfParam cfg.p 0
  let i := getSdfParam cfg.i 0
  let d := getSdfParam cfg.d 0
  let p := getSdfParam cfg.iMax 0
  let iMin := getSdfParam cfg.iMin 0
  let cmdMax := getSdfParam cfg.cmdMax 0
  let cmdMin := getSdfParam cfg.cmdMin 0
  PID.Init p i d iMaxUninit iMin cmdMax cmdMin

/-- `MotorModelServo::NormalizeAngle`, line by line. -/
def NormalizeAngle (input : ℚ) : ℚ :=
  let wrapped := fmod |input| (2 * mPi)
  let wrapped := copysign wrapped input
  let wrapped := if |wrapped - 2 * mPi| < 1e-8 then 0 else wrapped
  if wrapped < 0 then wrapped + 2 * mPi else wrapped

/-- The controller's state: the parameter fields of `MotorModelServo`
together with the fields it uses from its `MotorModel` base class.
Modelled from the spec (the base class is not among the sources): the base
holds the captured measured state `{position, velocity, effort}`, the
per-mode reference command, and the sampling time `dt`; `SpinDirection` is
the sign multiplier `{CW = -1, CCW = +1}` stored in `turning_direction_`. -/
structure ServoState where
  mode : ControlMode
  turning_direction : ℤ
  max_rot_velocity : ℚ
  max_torque : ℚ
  max_rot_position : ℚ
  min_rot_position : ℚ
  position_zero_offset : ℚ
  pid : PID
  motor_rot_pos : ℚ
  motor_rot_vel : ℚ
  motor_rot_effort : ℚ
  ref_motor_rot_pos : ℚ
  ref_motor_rot_vel : ℚ
  ref_motor_rot_effort : ℚ
  sampling_time : ℚ
deriving DecidableEq, Repr

/-- The measured joint state read at the top of `UpdateForcesAndMoments`
(`joint_->Position(0)`, `joint_->GetVelocity(0)`, `joint_->GetForce(0)`). -/
structure JointReads where
  position : ℚ
  velocity : ℚ
  force : ℚ
deriving DecidableEq, Repr

/-- The clamp of the reference position in the `kPosition` branch:
`std::max(std::min(ref_motor_rot_pos_, max_rot_position_), min_rot_position_)`. -/
def refPosClamped (s : ServoState) : ℚ :=
  max (min s.ref_motor_rot_pos s.max_rot_position) s.min_rot_position

/-- `MotorModelServo::UpdateForcesAndMoments`, line by line.  Returns the
updated controller state and the list of `joint_->SetForce(0, ·)` commands
issued during the call. -/
def UpdateForcesAndMoments (pidUpdate : PIDUpdate) (s : ServoState)
    (j : JointReads) : ServoState × List ℚ :=
  let s := { s with motor_rot_pos := j.position, motor_rot_vel := j.velocity,
                    motor_rot_effort := j.force }
  match s.mode with
  | ControlMode.kPosition =>
      let ref_pos := refPosClamped s
      let err := NormalizeAngle s.motor_rot_pos - NormalizeAngle ref_pos
      let err := if err > mPi then err - 2 * mPi else err
      let err := if |err - mPi| < 1e-8 then mPi else err
      let out := pidUpdate s.pid err s.sampling_time
      ({ s with pid := out.2 }, [(s.turning_direction : ℚ) * out.1])
  | ControlMode.kForce =>
      let ref_torque := copysign s.ref_motor_rot_effort
        (min |s.ref_motor_rot_effort| s.max_torque)
      (s, [(s.turning_direction : ℚ) * ref_torque])
  | ControlMode.kVelocity =>
      let ref_vel := copysign s.ref_motor_rot_vel
        (min |s.ref_motor_rot_vel| s.max_rot_velocity)
      let err := s.motor_rot_vel - ref_vel
      let out := pidUpdate s.pid err s.sampling_time
      ({ s with pid := out.2 }, [(s.turning_direction : ℚ) * out.1])

/-- A PID update that reports the error it was given and leaves the PID
state unchanged: used to observe the error fed to `pid_.Update`. -/
def pidEcho : PIDUpdate := fun pid err _ => (err, pid)

/-- A PID update that always outputs zero and leaves the PID state
unchanged (the degenerate all-zero-gain controller of the spec). -/
def pidZero : PIDUpdate := fun pid _ _ => (0, pid)

/-- The mathematical residue of `x` modulo `2π`, in `[0, 2π)`. -/
def residue (x : ℚ) : ℚ := x - 2 * mPi * ⌊x / (2 * mPi)⌋

/-- A quiescent controller state used as the base of concrete test states. -/
def baseState : ServoState where
  mode := ControlMode.kPosition
  turning_direction := 1
  max_rot_velocity := 0
  max_torque := 0
  max_rot_position := 0
  min_rot_position := 0
  position_zero_offset := 0
  pid := PID.Init 0 0 0 0 0 0 0
  motor_rot_pos := 0
  motor_rot_vel := 0
  motor_rot_effort := 0
  ref_motor_rot_pos := 0
  ref_motor_rot_vel := 0
  ref_motor_rot_effort := 0
  sampling_time := 1

/-- Joint at rest. -/
def joint0 : JointReads := ⟨0, 0, 0⟩

/-- Force mode, reference effort `-50`, `maxTorque = 10`. -/
def sForceC1 : ServoState :=
  { baseState with mode := ControlMode.kForce, max_torque := 10,
                   ref_motor_rot_effort := -50 }

/-- Velocity mode, reference velocity `-50`, `maxVelocity = 10`. -/
def sVelC1 : ServoState :=
  { baseState with mode := ControlMode.kVelocity, max_rot_velocity := 10,
                   ref_motor_rot_vel := -50 }

/-- Position mode, reference `2π - 0.01`, wide position limits. -/
def sPosC2 : ServoState :=
  { baseState with mode := ControlMode.kPosition, max_rot_position := 10,
                   min_rot_position := -10,
                   ref_motor_rot_pos := 2 * mPi - 1 / 100 }

/-- Joint measured at position `0.01`. -/
def jointC2 : JointReads := ⟨1 / 100, 0, 0⟩

/-- A fully populated `joint_control_pid` block:
`p = 1, i = 0, d = 0, iMax = 5, iMin = 2, cmdMax = 3, cmdMin = -3`. -/
def cfgC3 : PidConfig :=
  ⟨some 1, some 0, some 0, some 5, some 2, some 3, some (-3)⟩

/-- Position mode with `maxPosition = 1`, `minPosition = -1` and a
reference of `100` rad. -/
def sPosC6 : ServoState :=
  { baseState with mode := ControlMode.kPosition, max_rot_position := 1,
                   min_rot_position := -1, ref_motor_rot_pos := 100 }

end Servo

/-! ## Arithmetic facts about `NormalizeAngle` -/

namespace Servo

lemma mPi_pos : 0 < mPi := by norm_num [mPi]

lemma two_mPi_pos : 0 < 2 * mPi := by norm_num [mPi]

lemma eps_lt_two_mPi : (1e-8 : ℚ) < 2 * mPi := by norm_num [mPi]

lemma residue_eq_fract (x : ℚ) :
    residue x = 2 * mPi * Int.fract (x / (2 * mPi)) := by
  have hT : (2 * mPi) ≠ 0 := ne_of_gt two_mPi_pos
  unfold residue
  rw [Int.fract]
  field_simp

lemma residue_nonneg (x : ℚ) : 0 ≤ residue x := by
  rw [residue_eq_fract]
  exact mul_nonneg (le_of_lt two_mPi_pos) (Int.fract_nonneg _)

lemma residue_lt (x : ℚ) : residue x < 2 * mPi := by
  rw [residue_eq_fract]
  exact mul_lt_of_lt_one_right two_mPi_pos (Int.fract_lt_one _)

lemma residue_eq_self {x : ℚ} (h0 : 0 ≤ x) (h1 : x < 2 * mPi) :
    residue x = x := by
  have hfloor : ⌊x / (2 * mPi)⌋ = 0 := by
    rw [Int.floor_eq_zero_iff]
    constructor
    · exact div_nonneg h0 (le_of_lt two_mPi_pos)
    · exact (div_lt_one two_mPi_pos).2 h1
  simp [residue, hfloor]

lemma fmod_eq_residue {x : ℚ} (h : 0 ≤ x) : fmod x (2 * mPi) = residue x := by
  unfold fmod residue rtrunc
  rw [if_neg (not_lt.2 (div_nonneg h (le_of_lt two_mPi_pos)))]

lemma residue_neg (x : ℚ) :
    residue (-x) = if residue x = 0 then 0 else 2 * mPi - residue x := by
  have hT : (2 * mPi) ≠ 0 := ne_of_gt two_mPi_pos
  have hneg : -x / (2 * mPi) = -(x / (2 * mPi)) := by ring
  by_cases h : Int.fract (x / (2 * mPi)) = 0
  · have h2 : residue x = 0 := by rw [residue_eq_fract, h, mul_zero]
    have h3 : Int.fract (-(x / (2 * mPi))) = 0 := Int.fract_neg_eq_zero.2 h
    rw [if_pos h2, residue_eq_fract, hneg, h3, mul_zero]
  · have h2 : residue x ≠ 0 := by
      rw [residue_eq_fract]
      exact mul_ne_zero hT h
    rw [if_neg h2, residue_eq_fract, hneg, Int.fract_neg h, residue_eq_fract]
    ring

lemma copysign_of_nonneg_arg {w x : ℚ} (hw : 0 ≤ w) (hx : 0 ≤ x) :
    copysign w x = w := by
  rw [copysign, if_neg (not_lt.2 hx), abs_of_nonneg hw]

lemma copysign_of_neg {w x : ℚ} (hw : 0 ≤ w) (hx : x < 0) :
    copysign w x = -w := by
  rw [copysign, if_pos hx, abs_of_nonneg hw]

/-- Closed form of `NormalizeAngle`: it returns the residue of its input
modulo `2π`, except that a nonnegative input whose residue lies within
`1e-8` of `2π` is snapped to `0`. -/
lemma normalizeAngle_spec (x : ℚ) :
    NormalizeAngle x = residue x ∨
      (NormalizeAngle x = 0 ∧ 2 * mPi - residue x < 1e-8) := by
  have h0 := residue_nonneg x
  have h1 := residue_lt x
  have heps : (1e-8 : ℚ) < 2 * mPi := eps_lt_two_mPi
  by_cases hx : x < 0
  · left
    have habs : |x| = -x := abs_of_neg hx
    have hres : fmod |x| (2 * mPi) = residue (-x) := by
      rw [habs, fmod_eq_residue (by linarith)]
    by_cases hz : residue x = 0
    · have hresx : fmod |x| (2 * mPi) = 0 := by
        rw [hres, residue_neg, if_pos hz]
      rw [NormalizeAngle, hresx, copysign_of_neg le_rfl hx, neg_zero]
      have hsnap : ¬ (|0 - 2 * mPi| < (1e-8 : ℚ)) := by
        rw [zero_sub, abs_neg, abs_of_pos two_mPi_pos]
        linarith
      rw [if_neg hsnap, if_neg (lt_irrefl (0 : ℚ)), hz]
    · have hrpos : 0 < residue x := lt_of_le_of_ne h0 (Ne.symm hz)
      have hresx : fmod |x| (2 * mPi) = 2 * mPi - residue x := by
        rw [hres, residue_neg, if_neg hz]
      rw [NormalizeAngle, hresx, copysign_of_neg (by linarith) hx]
      have hsnap : ¬ (|-(2 * mPi - residue x) - 2 * mPi| < (1e-8 : ℚ)) := by
        have he : -(2 * mPi - residue x) - 2 * mPi = residue x - 4 * mPi := by
          ring
        rw [he, abs_of_nonpos (by linarith)]
        linarith
      rw [if_neg hsnap, if_pos (show -(2 * mPi - residue x) < 0 by linarith)]
      ring
  · push_neg at hx
    have habs : |x| = x := abs_of_nonneg hx
    have hresx : fmod |x| (2 * mPi) = residue x := by
      rw [habs, fmod_eq_residue hx]
    rw [NormalizeAngle, hresx, copysign_of_nonneg_arg h0 hx]
    by_cases hsnap : |residue x - 2 * mPi| < 1e-8
    · right
      have hs : 2 * mPi - residue x < 1e-8 := by
        rw [abs_of_neg (by linarith)] at hsnap
        linarith
      refine ⟨?_, hs⟩
      rw [if_pos hsnap, if_neg (lt_irrefl (0 : ℚ))]
    · left
      rw [if_neg hsnap, if_neg (not_lt.2 h0)]

/-- `NormalizeAngle` is the identity on `[0, 2π)` away from the snap band. -/
lemma norm_eval_pos (x : ℚ) (h0 : 0 ≤ x) (h1 : x < 2 * mPi)
    (h2 : (1e-8 : ℚ) ≤ 2 * mPi - x) : NormalizeAngle x = x := by
  have hresx : fmod |x| (2 * mPi) = x := by
    rw [abs_of_nonneg h0, fmod_eq_residue h0, residue_eq_self h0 h1]
  rw [NormalizeAngle, hresx, copysign_of_nonneg_arg h0 h0]
  have hsnap : ¬ (|x - 2 * mPi| < (1e-8 : ℚ)) := by
    rw [abs_of_neg (by linarith)]
    linarith
  rw [if_neg hsnap, if_neg (not_lt.2 h0)]

/-- `NormalizeAngle` snaps inputs within `1e-8` below `2π` to `0`. -/
lemma norm_eval_snap (x : ℚ) (h0 : 0 ≤ x) (h1 : x < 2 * mPi)
    (h2 : 2 * mPi - x < 1e-8) : NormalizeAngle x = 0 := by
  have hresx : fmod |x| (2 * mPi) = x := by
    rw [abs_of_nonneg h0, fmod_eq_residue h0, residue_eq_self h0 h1]
  rw [NormalizeAngle, hresx, copysign_of_nonneg_arg h0 h0]
  have hsnap : |x - 2 * mPi| < (1e-8 : ℚ) := by
    rw [abs_of_neg (by linarith)]
    linarith
  rw [if_pos hsnap, if_neg (lt_irrefl (0 : ℚ))]

/-- `NormalizeAngle` shifts inputs in `(-2π, 0)` up by `2π`. -/
lemma norm_eval_neg (x : ℚ) (h0 : -(2 * mPi) < x) (h1 : x < 0) :
    NormalizeAngle x = x + 2 * mPi := by
  have hresx : fmod |x| (2 * mPi) = -x := by
    rw [abs_of_neg h1, fmod_eq_residue (by linarith),
        residue_eq_self (by linarith) (by linarith)]
  rw [NormalizeAngle, hresx, copysign_of_neg (by linarith) h1, neg_neg]
  have hsnap : ¬ (|x - 2 * mPi| < (1e-8 : ℚ)) := by
    rw [abs_of_neg (by linarith [two_mPi_pos])]
    linarith [eps_lt_two_mPi]
  rw [if_neg hsnap, if_pos h1]

end Servo

/-! ## The claims -/

namespace Servo

/-- C4: for every input `x`, the angle-normalization function returns a
value in the half-open interval `[0, 2π)`. -/
theorem normalizeAngle_in_range (x : ℚ) :
    0 ≤ NormalizeAngle x ∧ NormalizeAngle x < 2 * mPi := by
  rcases normalizeAngle_spec x with h | ⟨h, _⟩
  · rw [h]
    exact ⟨residue_nonneg x, residue_lt x⟩
  · rw [h]
    exact ⟨le_rfl, two_mPi_pos⟩

lemma residue_add_int_mul (a : ℚ) (k : ℤ) :
    residue (a + k * (2 * mPi)) = residue a := by
  unfold residue
  have hT : (2 * mPi) ≠ 0 := ne_of_gt two_mPi_pos
  have hd : (a + k * (2 * mPi)) / (2 * mPi) = a / (2 * mPi) + k := by
    field_simp
  rw [hd, Int.floor_add_int]
  push_cast
  ring

/-- C5 counterexample: `a = -1e-9` and `b = a + 2π` represent the same
physical angle modulo `2π`, yet `normalize(b) = 0` (snapped) while
`normalize(a) = 2π - 1e-9`, so the two results differ by far more than
`1e-8`. -/
theorem normalizeAngle_tol_counterexample :
    |NormalizeAngle (-(1 / 1000000000) + 2 * mPi) -
        NormalizeAngle (-(1 / 1000000000))| > 1e-8 := by
  have ha : NormalizeAngle (-(1 / 1000000000)) =
      -(1 / 1000000000) + 2 * mPi := by
    rw [norm_eval_neg (-(1 / 1000000000)) (by norm_num [mPi]) (by norm_num)]
  have hb : NormalizeAngle (-(1 / 1000000000) + 2 * mPi) = 0 :=
    norm_eval_snap _ (by norm_num [mPi]) (by norm_num [mPi]) (by norm_num [mPi])
  rw [ha, hb]
  have he : (0 : ℚ) - (-(1 / 1000000000) + 2 * mPi) =
      -(2 * mPi - 1 / 1000000000) := by ring
  rw [he, abs_neg, abs_of_nonneg (by norm_num [mPi])]
  norm_num [mPi]

/-- C5 amended: for inputs representing the same physical angle modulo
`2π`, the two normalization results are congruent modulo `2π` to within
`1e-8`: their difference is within `1e-8` of an integer multiple of `2π`
(the snap-to-zero branch can move one of them across the `0`/`2π` cut, so
plain equality within `1e-8` fails). -/
theorem normalizeAngle_mod_equiv (a : ℚ) (k : ℤ) :
    ∃ j : ℤ, |NormalizeAngle (a + k * (2 * mPi)) - NormalizeAngle a -
      j * (2 * mPi)| < 1e-8 := by
  have hper := residue_add_int_mul a k
  have h0 := residue_nonneg a
  have h1 := residue_lt a
  rcases normalizeAngle_spec (a + k * (2 * mPi)) with hb | ⟨hb, hb2⟩ <;>
    rcases normalizeAngle_spec a with ha | ⟨ha, ha2⟩
  · refine ⟨0, ?_⟩
    rw [hb, ha, hper]
    norm_num
  · refine ⟨1, ?_⟩
    rw [hb, ha, hper]
    have he : residue a - 0 - (1 : ℤ) * (2 * mPi) = -(2 * mPi - residue a) := by
      push_cast
      ring
    rw [he, abs_neg, abs_of_nonneg (by linarith)]
    exact ha2
  · refine ⟨-1, ?_⟩
    rw [hb, ha]
    rw [hper] at hb2
    have he : (0 : ℚ) - residue a - (-1 : ℤ) * (2 * mPi) =
        2 * mPi - residue a := by
      push_cast
      ring
    rw [he, abs_of_nonneg (by linarith)]
    exact hb2
  · refine ⟨0, ?_⟩
    rw [hb, ha]
    norm_num

/-- C1: the Force-mode and Velocity-mode clamps do not limit the
magnitude and do not preserve the sign.  With reference `-50` and limit
`10`, the Force-mode tick applies `+50` (the arguments of `copysign` are
swapped in the source, so the result carries the magnitude of the raw
reference and the sign of the clamped magnitude), and the Velocity-mode
tick feeds the PID the error `0 - (+50) = -50` instead of `0 - (-10)`. -/
theorem forceClamp_dropsSignAndLimit :
    (UpdateForcesAndMoments pidEcho sForceC1 joint0).2 = [50] ∧
    (UpdateForcesAndMoments pidEcho sVelC1 joint0).2 = [-50] := by
  constructor
  · simp [UpdateForcesAndMoments, sForceC1, baseState, joint0, copysign, pidEcho]
  · simp [UpdateForcesAndMoments, sVelC1, baseState, joint0, copysign, pidEcho]

/-- C2: in Position mode with measured position `0.01` and reference
`2π - 0.01`, the error handed to the PID is `0.02 - 2π ≈ -6.263`, which
lies outside `(-π, π]`: the re-wrap handles only `err > π`, never
`err < -π`. -/
theorem positionErr_not_wrapped :
    (UpdateForcesAndMoments pidEcho sPosC2 jointC2).2 = [1 / 50 - 2 * mPi] ∧
    1 / 50 - 2 * mPi < -mPi := by
  have hca : NormalizeAngle (1 / 100) = 1 / 100 :=
    norm_eval_pos _ (by norm_num) (by norm_num [mPi]) (by norm_num [mPi])
  have hcb : NormalizeAngle (2 * mPi - 1 / 100) = 2 * mPi - 1 / 100 :=
    norm_eval_pos _ (by norm_num [mPi]) (by norm_num [mPi]) (by norm_num [mPi])
  constructor
  · simp only [UpdateForcesAndMoments, refPosClamped, sPosC2, baseState, jointC2,
      pidEcho]
    rw [min_eq_left (by norm_num [mPi]), max_eq_left (by norm_num [mPi]), hca,
      hcb]
    norm_num [abs_sub_lt_iff, abs_of_nonneg, mPi]
  · norm_num [mPi]

/-- C3: with a fully populated PID block (`p = 1, i = 0, d = 0, iMax = 5,
iMin = 2, cmdMax = 3, cmdMin = -3`), the integrator's proportional gain is
initialized to `5` — the value of the `iMax` field — and its `iMax` clamp
receives the uninitialized local variable (here modelled as `37`), because
the line reading `iMax` stores into `p`. -/
theorem pidInit_overwrites_p :
    (initPidFromConfig cfgC3 37).p = 5 ∧ (initPidFromConfig cfgC3 37).iMax = 37 ∧
    cfgC3.p = some 1 ∧ cfgC3.iMax = some 5 :=
  ⟨rfl, rfl, rfl, rfl⟩

/-- C6: assuming `minPosition ≤ maxPosition`, the Position-mode reference
clamp lands in `[minPosition, maxPosition]`, and a reference at or above
`maxPosition` is clamped exactly to `maxPosition`. -/
theorem refPosClamp_in_range (s : ServoState)
    (h : s.min_rot_position ≤ s.max_rot_position) :
    s.min_rot_position ≤ refPosClamped s ∧
    refPosClamped s ≤ s.max_rot_position ∧
    (s.max_rot_position ≤ s.ref_motor_rot_pos →
      refPosClamped s = s.max_rot_position) := by
  unfold refPosClamped
  refine ⟨le_max_right _ _, max_le (min_le_right _ _) h, ?_⟩
  intro hr
  rw [min_eq_right hr, max_eq_left h]

/-- C6 witness: with reference `100`, `maxPosition = 1`, `minPosition = -1`,
the clamp yields exactly `1`. -/
theorem refPosClamp_in_range_witness :
    sPosC6.min_rot_position ≤ sPosC6.max_rot_position ∧
    (sPosC6.min_rot_position ≤ refPosClamped sPosC6 ∧
     refPosClamped sPosC6 ≤ sPosC6.max_rot_position ∧
     (sPosC6.max_rot_position ≤ sPosC6.ref_motor_rot_pos →
       refPosClamped sPosC6 = sPosC6.max_rot_position)) ∧
    refPosClamped sPosC6 = 1 :=
  ⟨by norm_num [sPosC6, baseState],
   refPosClamp_in_range sPosC6 (by norm_num [sPosC6, baseState]),
   by norm_num [refPosClamped, sPosC6, baseState]⟩

lemma update_direction (pu : PIDUpdate) (s : ServoState) (j : JointReads)
    (d : ℤ) :
    (UpdateForcesAndMoments pu { s with turning_direction := d } j).2 =
      [(d : ℚ) *
        ((UpdateForcesAndMoments pu { s with turning_direction := 1 } j).2).headI] := by
  cases hm : s.mode <;> simp [UpdateForcesAndMoments, refPosClamped, hm]

/-- C7: two controller states identical except for the spin direction
(CCW `+1` vs CW `-1`), given the same measured state, references, PID
state and `dt`, apply forces of equal magnitude and opposite sign. -/
theorem spinDirection_flips_force (pu : PIDUpdate) (s : ServoState)
    (j : JointReads) :
    ∃ f : ℚ,
      (UpdateForcesAndMoments pu { s with turning_direction := 1 } j).2 = [f] ∧
      (UpdateForcesAndMoments pu { s with turning_direction := -1 } j).2 = [-f] := by
  refine ⟨((UpdateForcesAndMoments pu { s with turning_direction := 1 } j).2).headI,
    ?_, ?_⟩
  · rw [update_direction pu s j 1]
    norm_num
  · rw [update_direction pu s j (-1)]
    norm_num

/-- C8: a Force-mode tick leaves the PID state untouched, applies
`direction * copysign(ref, min(|ref|, maxTorque))` (the code's clamp
expression), and never calls `PID::Update`: the whole tick is independent
of the PID update function. -/
theorem forceMode_no_pid (pu pu' : PIDUpdate) (s : ServoState) (j : JointReads)
    (h : s.mode = ControlMode.kForce) :
    (UpdateForcesAndMoments pu s j).1.pid = s.pid ∧
    (UpdateForcesAndMoments pu s j).2 =
      [(s.turning_direction : ℚ) *
        copysign s.ref_motor_rot_effort (min |s.ref_motor_rot_effort| s.max_torque)] ∧
    UpdateForcesAndMoments pu s j = UpdateForcesAndMoments pu' s j := by
  refine ⟨?_, ?_, ?_⟩ <;> simp [UpdateForcesAndMoments, h]

/-- C8 witness: the Force-mode state with reference effort `-50` and
`maxTorque = 10`, ticked with two different PID update functions. -/
theorem forceMode_no_pid_witness :
    sForceC1.mode = ControlMode.kForce ∧
    ((UpdateForcesAndMoments pidEcho sForceC1 joint0).1.pid = sForceC1.pid ∧
     (UpdateForcesAndMoments pidEcho sForceC1 joint0).2 =
       [(sForceC1.turning_direction : ℚ) *
         copysign sForceC1.ref_motor_rot_effort
           (min |sForceC1.ref_motor_rot_effort| sForceC1.max_torque)] ∧
     UpdateForcesAndMoments pidEcho sForceC1 joint0 =
       UpdateForcesAndMoments pidZero sForceC1 joint0) :=
  ⟨rfl, forceMode_no_pid pidEcho pidZero sForceC1 joint0 rfl⟩

/-- C9: two controller states differing only in `position_zero_offset_`
produce the same applied force in every mode: the parsed zero offset never
enters the per-tick computation. -/
theorem zeroOffset_noninterference (pu : PIDUpdate) (s : ServoState)
    (j : JointReads) (z₁ z₂ : ℚ) :
    (UpdateForcesAndMoments pu { s with position_zero_offset := z₁ } j).2 =
    (UpdateForcesAndMoments pu { s with position_zero_offset := z₂ } j).2 := by
  cases hm : s.mode <;> simp [UpdateForcesAndMoments, refPosClamped, hm]

/-- C10: every tick issues exactly one `SetForce` command, overwrites the
captured measured state with the joint reads, and leaves the mode, spin
direction, limits, zero offset, references and sampling time unchanged
(the PID state is the only other field a tick may mutate). -/
theorem update_frame (pu : PIDUpdate) (s : ServoState) (j : JointReads) :
    (UpdateForcesAndMoments pu s j).2.length = 1 ∧
    (UpdateForcesAndMoments pu s j).1.mode = s.mode ∧
    (UpdateForcesAndMoments pu s j).1.turning_direction = s.turning_direction ∧
    (UpdateForcesAndMoments pu s j).1.max_rot_velocity = s.max_rot_velocity ∧
    (UpdateForcesAndMoments pu s j).1.max_torque = s.max_torque ∧
    (UpdateForcesAndMoments pu s j).1.max_rot_position = s.max_rot_position ∧
    (UpdateForcesAndMoments pu s j).1.min_rot_position = s.min_rot_position ∧
    (UpdateForcesAndMoments pu s j).1.position_zero_offset = s.position_zero_offset ∧
    (UpdateForcesAndMoments pu s j).1.ref_motor_rot_pos = s.ref_motor_rot_pos ∧
    (UpdateForcesAndMoments pu s j).1.ref_motor_rot_vel = s.ref_motor_rot_vel ∧
    (UpdateForcesAndMoments pu s j).1.ref_motor_rot_effort = s.ref_motor_rot_effort ∧
    (UpdateForcesAndMoments pu s j).1.sampling_time = s.sampling_time ∧
    (UpdateForcesAndMoments pu s j).1.motor_rot_pos = j.position ∧
    (UpdateForcesAndMoments pu s j).1.motor_rot_vel = j.velocity ∧
    (UpdateForcesAndMoments pu s j).1.motor_rot_effort = j.force := by
  cases hm : s.mode <;> simp [UpdateForcesAndMoments, hm]

end Servo
